import Mathlib

/-!
# redis-lock: a shallow embedding of `lock.go`

The store (`redis.Cmdable`), the retry strategy, the token generator, the
scheduler and the clocks are the environment of the code.  Every function of
`lock.go` is embedded as a pure function that receives what the environment
answered and returns, next to its Go result, the store calls it issued and the
new state of the channels it touched.

* errors are values of `Err`; `errorsIs` is `errors.Is` on them;
* a `chan struct{}` is a `Chan` (capacity, number of buffered elements,
  closed flag) with the three outcomes of a channel operation: it completes,
  it parks the goroutine, or it panics;
* `time.Duration` is an integer number of nanoseconds.
-/

namespace RedisLock

/-! ## Errors -/

/-- Error values seen by `lock.go`: its two sentinels, the sentinels of the
libraries it compares against, any other error, and an error wrapping another
one (`fmt.Errorf("...%w", inner)`). -/
inductive Err where
  | ErrLockNotHold
  | ErrFiledToPreemptLock
  | redisNil
  | deadlineExceeded
  | canceled
  | other (msg : String)
  | wrapped (msg : String) (inner : Err)
  deriving DecidableEq, Repr

/-- The function `errors.Is err target` for a non-nil `err`: some error of the
unwrap chain of `err` equals `target`. -/
def errorsIs : Err → Err → Bool
  | .wrapped msg inner, target =>
      decide (Err.wrapped msg inner = target) || errorsIs inner target
  | e, target => decide (e = target)

/-- The function `errors.Is err target` for an `error` interface value, where
`none` is the nil error. -/
def isErr (err : Option Err) (target : Err) : Bool :=
  match err with
  | none => false
  | some e => errorsIs e target

/-! ## Channels of `struct{}` -/

/-- Outcome of one channel operation. -/
inductive ChanOp (α : Type) where
  | ok (next : α)
  | blocks
  | panics (msg : String)
  deriving DecidableEq, Repr

/-- A `chan struct{}`: the elements carry no data, so the buffer is a count. -/
structure Chan where
  cap : Nat
  len : Nat
  closed : Bool
  deriving DecidableEq, Repr

/-- The call `make(chan struct{}, cap)`. -/
def makeChan (cap : Nat) : Chan := { cap := cap, len := 0, closed := false }

/-- The statement `c <- struct{}{}` with no receiver waiting. -/
def Chan.send (c : Chan) : ChanOp Chan :=
  if c.closed then .panics "send on closed channel"
  else if c.len < c.cap then .ok { c with len := c.len + 1 }
  else .blocks

/-- The call `close(c)`. -/
def Chan.close (c : Chan) : ChanOp Chan :=
  if c.closed then .panics "close of closed channel"
  else .ok { c with closed := true }

/-- A receive `<-c` can proceed: an element is buffered or the channel is
closed. -/
def Chan.recvReady (c : Chan) : Bool := decide (0 < c.len) || c.closed

/-- The expression `<-c` with no sender waiting. -/
def Chan.recv (c : Chan) : ChanOp Chan :=
  if 0 < c.len then .ok { c with len := c.len - 1 }
  else if c.closed then .ok c
  else .blocks

/-! ## Store calls -/

/-- A `time.Duration`: nanoseconds. -/
abbrev Duration := Int

/-- The method `Duration.Milliseconds`: integer division truncating toward
zero. -/
def Duration.Milliseconds (d : Duration) : Int := Int.tdiv d 1000000

def Millisecond : Duration := 1000000

def Second : Duration := 1000 * Millisecond

/-- The three embedded scripts. -/
inductive Script where
  | luaUnlock
  | luaRefresh
  | luaLock
  deriving DecidableEq, Repr

/-- An argument of `Eval`. -/
inductive Arg where
  | str (s : String)
  | duration (d : Duration)
  | int64 (n : Int)
  deriving DecidableEq, Repr

/-- A call on the `redis.Cmdable` of the client. -/
inductive StoreCall where
  | SetNX (key value : String) (expiration : Duration)
  | Eval (script : Script) (keys : List String) (args : List Arg)
  deriving DecidableEq, Repr

/-- What `.Result()` or `.Bool()` of a command returned. -/
structure BoolReply where
  res : Bool
  err : Option Err
  deriving DecidableEq, Repr

/-- What `.Int64()` of a command returned. -/
structure IntReply where
  res : Int
  err : Option Err
  deriving DecidableEq, Repr

/-- A handle on a `redis.Cmdable`. -/
abbrev Cmdable := Nat

/-! ## The held lock -/

structure Lock where
  client : Cmdable
  key : String
  value : String
  expiration : Duration
  unlock : Chan
  deriving DecidableEq, Repr

def NewLock (client : Cmdable) (key value : String) (expiration : Duration) : Lock :=
  { client := client, key := key, value := value, expiration := expiration,
    unlock := makeChan 1 }

/-- How a Go call ended. -/
inductive Outcome (α : Type) where
  | returned (a : α)
  | panicked (msg : String)
  | blocked
  deriving DecidableEq, Repr

/-- Result of `Lock.Refresh`: the store calls issued and the error returned. -/
structure RefreshResult where
  calls : List StoreCall
  err : Option Err
  deriving DecidableEq, Repr

/-- The method `Lock.Refresh`, given the reply of the store to its `Eval`. -/
def Lock.Refresh (l : Lock) (reply : IntReply) : RefreshResult :=
  let calls := [StoreCall.Eval .luaRefresh [l.key]
    [.str l.value, .int64 (Duration.Milliseconds l.expiration)]]
  if isErr reply.err .redisNil then
    { calls := calls, err := some .ErrLockNotHold }
  else if reply.err ≠ none then
    { calls := calls, err := reply.err }
  else if reply.res ≠ 1 then
    { calls := calls, err := some .ErrLockNotHold }
  else
    { calls := calls, err := none }

/-- Result of `Lock.Unlock`: the store calls issued, how the call ended, and
the lock with its release channel after the deferred function ran. -/
structure UnlockResult where
  calls : List StoreCall
  outcome : Outcome (Option Err)
  lock : Lock
  deriving DecidableEq, Repr

/-- The return value of the body of `Lock.Unlock`, before the deferred
function runs. -/
def Lock.unlockBody (reply : IntReply) : Option Err :=
  if isErr reply.err .redisNil then some .ErrLockNotHold
  else if reply.err ≠ none then reply.err
  else if reply.res = 0 then some .ErrLockNotHold
  else none

/-- The method `Lock.Unlock`, given the reply of the store to its `Eval`.  The
deferred function sends on `l.unlock` and then closes it; a panic or a park in
it replaces the return of the body. -/
def Lock.Unlock (l : Lock) (reply : IntReply) : UnlockResult :=
  let calls := [StoreCall.Eval .luaUnlock [l.key] [.str l.value]]
  let ret := Lock.unlockBody reply
  match l.unlock.send with
  | .panics msg => { calls := calls, outcome := .panicked msg, lock := l }
  | .blocks => { calls := calls, outcome := .blocked, lock := l }
  | .ok sent =>
    match sent.close with
    | .panics msg =>
        { calls := calls, outcome := .panicked msg, lock := { l with unlock := sent } }
    | .blocks => { calls := calls, outcome := .blocked, lock := { l with unlock := sent } }
    | .ok closed =>
        { calls := calls, outcome := .returned ret, lock := { l with unlock := closed } }

/-! ## The client: single attempt -/

/-- Result of an acquisition: the store calls issued, the lock and the error. -/
structure TryLockResult where
  calls : List StoreCall
  lock : Option Lock
  err : Option Err
  deriving DecidableEq, Repr

/-- The method `Client.TryLock`.  `value` is the string of the fresh UUID and
`reply` the reply of the store to `SetNX`. -/
def Client.TryLock (client : Cmdable) (value : String) (key : String)
    (expiration : Duration) (reply : BoolReply) : TryLockResult :=
  let calls := [StoreCall.SetNX key value expiration]
  if reply.err ≠ none then
    { calls := calls, lock := none, err := reply.err }
  else if !reply.res then
    { calls := calls, lock := none, err := some .ErrFiledToPreemptLock }
  else
    { calls := calls, lock := some (NewLock client key value expiration), err := none }

/-! ## The client: retrying acquisition -/

/-- What `ctx.Err()` returns once the context is done. -/
inductive CtxErr where
  | Canceled
  | DeadlineExceeded
  deriving DecidableEq, Repr

def CtxErr.toErr : CtxErr → Err
  | .Canceled => .canceled
  | .DeadlineExceeded => .deadlineExceeded

/-- The environment of one run of `Client.Lock`, indexed by the iteration of
its loop: the reply of the store to the `Eval` of that iteration, what
`retry.Next()` returns in it, the state of `ctx` while the attempt runs (the
code hands `ctx` to the store and does not look at it there), the state of
`ctx` when the wait of that iteration ends (`none`: the timer fires with `ctx`
not done), and whether the timer had fired as well and `select` picked it. -/
structure LockEnv where
  eval : Nat → BoolReply
  next : Nat → Duration × Bool
  ctxAtEval : Nat → Option CtxErr
  ctxAtWait : Nat → Option CtxErr
  timerPicked : Nat → Bool

/-- What `Client.Lock` did, in order. -/
inductive LockEvent where
  | eval (call : StoreCall) (timeout : Duration)
  | next
  | wait (interval : Duration)
  deriving DecidableEq, Repr

/-- The case taken by the `select` of `Client.Lock`. -/
inductive WaitSel where
  | ctxDone (e : CtxErr)
  | timer
  deriving DecidableEq, Repr

/-- The `select` over `ctx.Done()` and `timer.C`: with `ctx` not done it waits
for the timer; with `ctx` done it takes `ctx.Done()` unless the timer has fired
too and the runtime picks that case. -/
def selectWait (ctx : Option CtxErr) (timerPicked : Bool) : WaitSel :=
  match ctx with
  | none => .timer
  | some e => if timerPicked then .timer else .ctxDone e

/-- Result of `Client.Lock`: what it did, the lock and the error. -/
structure LockResult where
  trace : List LockEvent
  lock : Option Lock
  err : Option Err
  deriving DecidableEq, Repr

/-- The `for` loop of `Client.Lock` from iteration `i` on, with `trace` what
was done before.  `none`: the loop is still running after `fuel` iterations. -/
def Client.lockLoop (client : Cmdable) (env : LockEnv) (value key : String)
    (expiration timeout : Duration) : Nat → Nat → List LockEvent → Option LockResult
  | 0, _, _ => none
  | fuel + 1, i, trace =>
    let reply := env.eval i
    let trace := trace ++
      [.eval (.Eval .luaLock [key] [.str value, .duration expiration]) timeout]
    if reply.err ≠ none ∧ isErr reply.err .deadlineExceeded = false then
      some { trace := trace, lock := none, err := reply.err }
    else if reply.res then
      some { trace := trace, lock := some (NewLock client key value expiration), err := none }
    else
      let trace := trace ++ [.next]
      if (env.next i).2 = false then
        some { trace := trace, lock := none, err := some .ErrFiledToPreemptLock }
      else
        let trace := trace ++ [.wait (env.next i).1]
        match selectWait (env.ctxAtWait i) (env.timerPicked i) with
        | .ctxDone e => some { trace := trace, lock := none, err := some e.toErr }
        | .timer => Client.lockLoop client env value key expiration timeout fuel (i + 1) trace

/-- The method `Client.Lock`, run for at most `fuel` iterations.  `value` is
the string of the fresh UUID. -/
def Client.Lock (client : Cmdable) (env : LockEnv) (value key : String)
    (expiration timeout : Duration) (fuel : Nat) : Option LockResult :=
  Client.lockLoop client env value key expiration timeout fuel 0 []

/-- Iteration `i` of the loop of `Client.Lock` goes round: the attempt has no
error other than deadline-exceeded and did not acquire, `retry.Next()` grants
a retry, and the `select` takes the timer. -/
def LockEnv.goesRound (env : LockEnv) (i : Nat) : Prop :=
  ¬ ((env.eval i).err ≠ none ∧ isErr (env.eval i).err .deadlineExceeded = false) ∧
  (env.eval i).res = false ∧
  (env.next i).2 = true ∧
  selectWait (env.ctxAtWait i) (env.timerPicked i) = .timer

/-- The `Eval` of an acquisition attempt as it appears in the trace. -/
def attemptEvent (value key : String) (expiration timeout : Duration) : LockEvent :=
  .eval (.Eval .luaLock [key] [.str value, .duration expiration]) timeout

/-- The trace of `k` iterations that go round, from iteration `i` on. -/
def roundsTrace (env : LockEnv) (value key : String) (expiration timeout : Duration) :
    Nat → Nat → List LockEvent
  | _, 0 => []
  | i, k + 1 =>
    [attemptEvent value key expiration timeout, .next, .wait (env.next i).1] ++
      roundsTrace env value key expiration timeout (i + 1) k

/-- Number of acquisition attempts in a trace. -/
def attempts (trace : List LockEvent) : Nat :=
  trace.countP (fun ev => match ev with | .eval _ _ => true | _ => false)

/-- Number of calls of `retry.Next()` in a trace. -/
def nextCalls (trace : List LockEvent) : Nat :=
  trace.countP (fun ev => match ev with | .next => true | _ => false)

/-- The intervals waited for in a trace, in order. -/
def waits (trace : List LockEvent) : List Duration :=
  trace.filterMap (fun ev => match ev with | .wait d => some d | _ => none)

/-- An environment for the scenario of the contended key: the store answers a
clean `false` to every attempt, the strategy grants `n` retries of `interval`
each, and `ctx` never fires. -/
def contendedEnv (n : Nat) (interval : Duration) : LockEnv :=
  { eval := fun _ => ⟨false, none⟩
    next := fun i => (interval, decide (i < n))
    ctxAtEval := fun _ => none
    ctxAtWait := fun _ => none
    timerPicked := fun _ => false }

/-- An environment in which the deadline of `ctx` has passed: the store answers
deadline-exceeded to every attempt, `ctx` is done from the first attempt on, and
the strategy grants `n` retries of `interval` each. -/
def expiredCtxEnv (n : Nat) (interval : Duration) : LockEnv :=
  { eval := fun _ => ⟨false, some .deadlineExceeded⟩
    next := fun i => (interval, decide (i < n))
    ctxAtEval := fun _ => some .DeadlineExceeded
    ctxAtWait := fun _ => some .DeadlineExceeded
    timerPicked := fun _ => false }

/-- An environment in which the store fails with `e` on attempt `k` and answers
a clean `false` before; the strategy always grants a retry. -/
def failingStoreEnv (k : Nat) (e : Err) (interval : Duration) : LockEnv :=
  { eval := fun i => if i = k then ⟨false, some e⟩ else ⟨false, none⟩
    next := fun _ => (interval, true)
    ctxAtEval := fun _ => none
    ctxAtWait := fun _ => none
    timerPicked := fun _ => false }

/-- An environment in which `ctx` is cancelled during the wait of iteration
`k`: the store answers a clean `false` to every attempt, the strategy always
grants a retry, and `ctx` is done from the wait of iteration `k` on. -/
def cancelledEnv (k : Nat) (interval : Duration) : LockEnv :=
  { eval := fun _ => ⟨false, none⟩
    next := fun _ => (interval, true)
    ctxAtEval := fun i => if i ≤ k then none else some .Canceled
    ctxAtWait := fun i => if i < k then none else some .Canceled
    timerPicked := fun _ => false }

/-! ## The client: coalesced acquisition -/

/-- One iteration of the loop of `Client.SingleFlightLock` as the caller sees
it: `flag` after the result arrived (the closure of this very `DoChan` call was
run), the `singleflight.Result` delivered on `resCh`, the state of `ctx` at the
`select`, and whether the result had arrived as well and `select` picked it. -/
structure SFRound where
  flag : Bool
  val : Option Lock
  err : Option Err
  ctx : Option CtxErr
  resPicked : Bool

/-- A loop iteration either returns or goes round again. -/
inductive IterStep (α : Type) where
  | ret (a : α)
  | again
  deriving DecidableEq, Repr

/-- The `select` over `resCh` and `ctx.Done()` followed by the `if flag`. -/
def Client.singleFlightIter (r : SFRound) :
    IterStep (Option RedisLock.Lock × Option Err) :=
  match r.ctx, r.resPicked with
  | some e, false => .ret (none, some e.toErr)
  | _, _ =>
    if r.flag then
      if r.err ≠ none then .ret (none, r.err) else .ret (r.val, none)
    else .again

/-- Result of `Client.SingleFlightLock`: the number of `DoChan` calls it made,
the lock and the error. -/
structure SFResult where
  doChanCalls : Nat
  lock : Option Lock
  err : Option Err
  deriving DecidableEq, Repr

/-- The loop of `Client.SingleFlightLock` from iteration `i` on.  `none`: the
loop is still running after `fuel` iterations. -/
def Client.singleFlightLoop (rounds : Nat → SFRound) : Nat → Nat → Option SFResult
  | 0, _ => none
  | fuel + 1, i =>
    match Client.singleFlightIter (rounds i) with
    | .ret (lock, err) => some { doChanCalls := i + 1, lock := lock, err := err }
    | .again => Client.singleFlightLoop rounds fuel (i + 1)

/-- The method `Client.SingleFlightLock`, run for at most `fuel` iterations. -/
def Client.SingleFlightLock (rounds : Nat → SFRound) (fuel : Nat) : Option SFResult :=
  Client.singleFlightLoop rounds fuel 0

/-- The lock another caller acquired in the scenario of the coalesced call. -/
def sharedLock : RedisLock.Lock := NewLock 1 "job:42" "3f2c" (30 * Second)

/-- The rounds of a caller that is coalesced, in its first round, onto a call
that acquired `sharedLock`, and whose own closure runs in its second round and
finds the key held. -/
def coalescedRounds : Nat → SFRound := fun i =>
  if i = 0 then
    { flag := false, val := some sharedLock, err := none, ctx := none, resPicked := true }
  else
    { flag := true, val := none, err := some .ErrFiledToPreemptLock, ctx := none,
      resPicked := true }

/-! ## The watchdog -/

/-- The cases of the `select` of `Lock.AutoRefresh`, in source order. -/
inductive Branch where
  | ch
  | ticker
  | unlock
  deriving DecidableEq, Repr

/-- What the environment offers to one `select` of `Lock.AutoRefresh`: whether
`ticker.C` holds a tick, the state of `l.unlock`, the choice of the runtime
among the ready cases, and the reply of the store should `Refresh` be called. -/
structure RefreshRound where
  tick : Bool
  unlock : Chan
  pick : Nat
  reply : IntReply
  deriving DecidableEq, Repr

/-- The cases of the `select` that can proceed. -/
def readyBranches (ch : Chan) (r : RefreshRound) : List Branch :=
  (if ch.recvReady then [Branch.ch] else []) ++
  (if r.tick then [Branch.ticker] else []) ++
  (if r.unlock.recvReady then [Branch.unlock] else [])

/-- The case the `select` takes: one of the ready ones, or `none` while no case
is ready. -/
def selectBranch (ch : Chan) (r : RefreshRound) : Option Branch :=
  (readyBranches ch r)[r.pick % (readyBranches ch r).length]?

/-- A run of `Lock.AutoRefresh`: `time.NewTicker` panicked before the retry
channel was made, or the run is still in its loop, or it ended.  `ch` is the
retry channel and `log` the `Refresh` calls made, each with the case that made
it and the error it returned. -/
inductive AutoRun where
  | noTicker (msg : String)
  | running (ch : Chan) (log : List (Branch × Option Err))
  | done (outcome : Outcome (Option Err)) (ch : Chan) (log : List (Branch × Option Err))
  deriving DecidableEq, Repr

/-- A `return err` of `Lock.AutoRefresh`: the deferred `close(ch)` runs. -/
def autoReturn (err : Option Err) (ch : Chan) (log : List (Branch × Option Err)) : AutoRun :=
  match ch.close with
  | .ok closed => .done (.returned err) closed log
  | .panics msg => .done (.panicked msg) ch log
  | .blocks => .done .blocked ch log

/-- The loop of `Lock.AutoRefresh` over the rounds the environment offers. -/
def Lock.autoRefreshLoop (l : Lock) :
    List RefreshRound → Chan → List (Branch × Option Err) → AutoRun
  | [], ch, log => .running ch log
  | r :: rest, ch, log =>
    match selectBranch ch r with
    | none => Lock.autoRefreshLoop l rest ch log
    | some .ch =>
      match ch.recv with
      | .panics msg => .done (.panicked msg) ch log
      | .blocks => .done .blocked ch log
      | .ok ch1 =>
        let err := (l.Refresh r.reply).err
        let log := log ++ [(Branch.ch, err)]
        if isErr err .deadlineExceeded then
          match ch1.send with
          | .panics msg => .done (.panicked msg) ch1 log
          | .blocks => .done .blocked ch1 log
          | .ok ch2 => Lock.autoRefreshLoop l rest ch2 log
        else if err ≠ none then autoReturn err ch1 log
        else Lock.autoRefreshLoop l rest ch1 log
    | some .ticker =>
      let err := (l.Refresh r.reply).err
      let log := log ++ [(Branch.ticker, err)]
      if isErr err .deadlineExceeded then
        match ch.send with
        | .panics msg => .done (.panicked msg) ch log
        | .blocks => .done .blocked ch log
        | .ok ch2 => Lock.autoRefreshLoop l rest ch2 log
      else if err ≠ none then autoReturn err ch log
      else Lock.autoRefreshLoop l rest ch log
    | some .unlock => autoReturn none ch log

set_option linter.unusedVariables false in
/-- The method `Lock.AutoRefresh`: `ticker := time.NewTicker(interval)`, which
panics on an interval that is not positive, then `ch := make(chan struct{}, 1)`
and the loop.  `timeout` is the deadline of the context of each `Refresh`; what
the store answers under it is part of the round. -/
def Lock.AutoRefresh (l : Lock) (interval timeout : Duration)
    (rounds : List RefreshRound) : AutoRun :=
  if interval ≤ 0 then .noTicker "non-positive interval for NewTicker"
  else Lock.autoRefreshLoop l rounds (makeChan 1) []

/-- A round of the watchdog in which the ticker has ticked, the lock is not
released, and the store answers the `Refresh` with deadline-exceeded. -/
def tickTimeout (pick : Nat) : RefreshRound :=
  { tick := true, unlock := makeChan 1, pick := pick,
    reply := { res := 0, err := some .deadlineExceeded } }

/-- The lock of the scenario after a first `Unlock` that deleted the key. -/
def releasedLock : RedisLock.Lock :=
  ((NewLock 1 "job:42" "3f2c" (30 * Second)).Unlock ⟨1, none⟩).lock

/-- A `Refresh` result after which the watchdog does not return: success or a
deadline-exceeded error. -/
def keepsGoing (err : Option Err) : Prop :=
  err = none ∨ isErr err .deadlineExceeded = true

/-- What holds of a run of the watchdog loop that ended, started with `log` and
ended with `log1`: the `Refresh` calls it added all kept it going, except the
last one when it returned an error; it returned nil only with the release
channel readable in some round; it was parked only by the send of the ticker
case. -/
def AutoPost (rounds : List RefreshRound) (log : List (Branch × Option Err))
    (out : Outcome (Option Err)) (log1 : List (Branch × Option Err)) : Prop :=
  ∃ more, log1 = log ++ more ∧
    ((∃ pre e, out = .blocked ∧ more = pre ++ [(Branch.ticker, some e)] ∧
        errorsIs e .deadlineExceeded = true ∧ ∀ x ∈ pre, keepsGoing x.2) ∨
     (out = .returned none ∧ (∀ x ∈ more, keepsGoing x.2) ∧
        ∃ r ∈ rounds, r.unlock.recvReady = true) ∨
     (∃ pre b e, out = .returned (some e) ∧ more = pre ++ [(b, some e)] ∧
        errorsIs e .deadlineExceeded = false ∧ ∀ x ∈ pre, keepsGoing x.2))

/-! ## Single-call operations -/

/-- Whole milliseconds: thirty seconds are 30000, and a remainder below one
millisecond is dropped. -/
theorem milliseconds_examples :
    Duration.Milliseconds (30 * Second) = 30000 ∧ Duration.Milliseconds 1999999 = 1 ∧
    Duration.Milliseconds (-1999999) = -1 := by
  decide

theorem isErr_none (t : Err) : isErr none t = false := rfl

theorem isErr_some (e t : Err) : isErr (some e) t = errorsIs e t := rfl

/-- C7: `TryLock` issues exactly one store call, `SetNX` with the key and the
lease of the caller and the fresh token; a store error comes back unchanged
with no lock, a clean `false` gives `ErrFiledToPreemptLock` with no lock, and a
clean `true` gives a lock holding the key, the lease and the non-empty token
that was sent to the store, with a nil error. -/
theorem tryLock_spec (client : Cmdable) (value key : String) (expiration : Duration)
    (reply : BoolReply) (hv : value ≠ "") :
    (Client.TryLock client value key expiration reply).calls
        = [StoreCall.SetNX key value expiration] ∧
    (∀ e, reply.err = some e →
      (Client.TryLock client value key expiration reply).lock = none ∧
      (Client.TryLock client value key expiration reply).err = some e) ∧
    (reply.err = none → reply.res = false →
      (Client.TryLock client value key expiration reply).lock = none ∧
      (Client.TryLock client value key expiration reply).err
        = some Err.ErrFiledToPreemptLock) ∧
    (reply.err = none → reply.res = true →
      ∃ l : RedisLock.Lock,
        (Client.TryLock client value key expiration reply).lock = some l ∧
        l.key = key ∧ l.expiration = expiration ∧ l.value = value ∧ l.value ≠ "" ∧
        l.client = client ∧
        (Client.TryLock client value key expiration reply).err = none) := by
  obtain ⟨res, err⟩ := reply
  refine ⟨?_, ?_, ?_, ?_⟩
  · unfold Client.TryLock
    dsimp only
    split_ifs <;> rfl
  · intro e he
    simp only at he
    subst he
    simp [Client.TryLock]
  · intro he hr
    simp only at he hr
    subst he hr
    simp [Client.TryLock]
  · intro he hr
    simp only at he hr
    subst he hr
    exact ⟨NewLock client key value expiration, by simp [Client.TryLock],
      rfl, rfl, rfl, hv, rfl, by simp [Client.TryLock]⟩

theorem tryLock_spec_witness :
    ("3f2c" : String) ≠ "" ∧
    (Client.TryLock 1 "3f2c" "locked_key" (60 * Second) ⟨true, none⟩).calls
        = [StoreCall.SetNX "locked_key" "3f2c" (60 * Second)] :=
  ⟨by decide, (tryLock_spec 1 "3f2c" "locked_key" (60 * Second) ⟨true, none⟩ (by decide)).1⟩

/-- C8: `Refresh` sends the lease in whole milliseconds; it returns
`ErrLockNotHold` on the not-found signal of the store, any other store error
unchanged, `ErrLockNotHold` on a clean count other than 1, and nil exactly when
the store answers count 1 without error. -/
theorem refresh_spec (l : RedisLock.Lock) (reply : IntReply) :
    (l.Refresh reply).calls
        = [StoreCall.Eval .luaRefresh [l.key]
            [.str l.value, .int64 (Int.tdiv l.expiration 1000000)]] ∧
    (isErr reply.err .redisNil = true → (l.Refresh reply).err = some .ErrLockNotHold) ∧
    (∀ e, reply.err = some e → errorsIs e .redisNil = false →
      (l.Refresh reply).err = some e) ∧
    (reply.err = none → reply.res ≠ 1 → (l.Refresh reply).err = some .ErrLockNotHold) ∧
    ((l.Refresh reply).err = none ↔ reply.err = none ∧ reply.res = 1) := by
  obtain ⟨res, err⟩ := reply
  refine ⟨?_, ?_, ?_, ?_, ?_⟩
  · unfold Lock.Refresh Duration.Milliseconds
    dsimp only
    split_ifs <;> rfl
  · intro h
    simp only at h
    simp [Lock.Refresh, h]
  · intro e he hn
    simp only at he
    subst he
    simp [Lock.Refresh, isErr_some, hn]
  · intro he hr
    simp only at he hr
    subst he
    simp [Lock.Refresh, isErr_none, hr]
  · cases err with
    | none =>
      by_cases hr : res = 1 <;> simp [Lock.Refresh, isErr_none, hr]
    | some e =>
      cases hn : errorsIs e .redisNil <;> simp [Lock.Refresh, isErr_some, hn]

/-- A first `Unlock` (release channel as `NewLock` made it) issues the
conditional delete, returns `ErrLockNotHold` on not-found or on a clean count
0, any other store error unchanged and nil otherwise, and on each of these
paths it returns normally with the release signal fired: the channel, not
readable before, holds one element and is closed. -/
theorem unlock_first_spec (l : RedisLock.Lock) (reply : IntReply)
    (hfresh : l.unlock = makeChan 1) :
    (l.Unlock reply).calls = [StoreCall.Eval .luaUnlock [l.key] [.str l.value]] ∧
    (l.Unlock reply).outcome = .returned (Lock.unlockBody reply) ∧
    (isErr reply.err .redisNil = true → Lock.unlockBody reply = some .ErrLockNotHold) ∧
    (reply.err = none → reply.res = 0 → Lock.unlockBody reply = some .ErrLockNotHold) ∧
    (∀ e, reply.err = some e → errorsIs e .redisNil = false →
      Lock.unlockBody reply = some e) ∧
    (reply.err = none → reply.res ≠ 0 → Lock.unlockBody reply = none) ∧
    l.unlock.recvReady = false ∧
    (l.Unlock reply).lock.unlock = { cap := 1, len := 1, closed := true } ∧
    (l.Unlock reply).lock.unlock.recvReady = true := by
  obtain ⟨res, err⟩ := reply
  have hU : l.Unlock ⟨res, err⟩ =
      { calls := [StoreCall.Eval .luaUnlock [l.key] [.str l.value]],
        outcome := .returned (Lock.unlockBody ⟨res, err⟩),
        lock := { l with unlock := { cap := 1, len := 1, closed := true } } } := by
    simp [Lock.Unlock, hfresh, makeChan, Chan.send, Chan.close]
  refine ⟨by rw [hU], by rw [hU], ?_, ?_, ?_, ?_, ?_, by rw [hU], by rw [hU]; rfl⟩
  · intro h
    simp only at h
    simp [Lock.unlockBody, h]
  · intro he hr
    simp only at he hr
    subst he hr
    simp [Lock.unlockBody, isErr_none]
  · intro e he hn
    simp only at he
    subst he
    simp [Lock.unlockBody, isErr_some, hn]
  · intro he hr
    simp only at he hr
    subst he
    simp [Lock.unlockBody, isErr_none, hr]
  · rw [hfresh]
    rfl

theorem unlock_first_spec_witness :
    (NewLock 1 "job:42" "3f2c" (30 * Second)).unlock = makeChan 1 ∧
    ((NewLock 1 "job:42" "3f2c" (30 * Second)).Unlock ⟨1, none⟩).outcome
        = .returned (Lock.unlockBody ⟨1, none⟩) :=
  ⟨rfl, (unlock_first_spec (NewLock 1 "job:42" "3f2c" (30 * Second)) ⟨1, none⟩ rfl).2.1⟩

/-- C9, evaluated: on a lock whose release channel is closed (an `Unlock` ran
on it before), `Unlock` issues the conditional delete and then panics in its
deferred send, whatever the store answers: it returns none of
`ErrLockNotHold`, the store error or nil that its body computed, and it leaves
the lock as it was. -/
theorem unlock_released_panics (l : RedisLock.Lock) (reply : IntReply)
    (hclosed : l.unlock.closed = true) :
    (l.Unlock reply).calls = [StoreCall.Eval .luaUnlock [l.key] [.str l.value]] ∧
    (l.Unlock reply).outcome = .panicked "send on closed channel" ∧
    (l.Unlock reply).outcome ≠ .returned (Lock.unlockBody reply) ∧
    (l.Unlock reply).lock = l := by
  have hU : l.Unlock reply =
      { calls := [StoreCall.Eval .luaUnlock [l.key] [.str l.value]],
        outcome := .panicked "send on closed channel", lock := l } := by
    simp [Lock.Unlock, Chan.send, hclosed]
  rw [hU]
  exact ⟨rfl, rfl, by simp, rfl⟩

theorem unlock_released_panics_witness :
    releasedLock.unlock.closed = true ∧
    Lock.unlockBody ⟨0, none⟩ = some Err.ErrLockNotHold ∧
    (releasedLock.Unlock ⟨0, none⟩).outcome = .panicked "send on closed channel" ∧
    (releasedLock.Unlock ⟨0, none⟩).outcome ≠ .returned (some Err.ErrLockNotHold) := by
  have hclosed : releasedLock.unlock.closed = true := by
    simp [releasedLock, Lock.Unlock, NewLock, makeChan, Chan.send, Chan.close]
  have hbody : Lock.unlockBody ⟨0, none⟩ = some Err.ErrLockNotHold := by
    simp [Lock.unlockBody, isErr]
  have h := unlock_released_panics releasedLock ⟨0, none⟩ hclosed
  refine ⟨hclosed, hbody, h.2.1, ?_⟩
  rw [← hbody]
  exact h.2.2.1

/-- C1, evaluated: the second `Unlock` of a lock made by `NewLock` panics,
whatever the store answers to either call.  The first call returns and leaves
the release channel holding one element and closed; the second call issues its
store call, then its deferred function sends on the closed channel.  The
channel is left as the first call left it. -/
theorem unlock_twice_panics (client : Cmdable) (key value : String)
    (expiration : Duration) (first second : IntReply) :
    ((NewLock client key value expiration).Unlock first).outcome
        = .returned (Lock.unlockBody first) ∧
    ((NewLock client key value expiration).Unlock first).lock.unlock
        = { cap := 1, len := 1, closed := true } ∧
    (((NewLock client key value expiration).Unlock first).lock.Unlock second).calls
        = [StoreCall.Eval .luaUnlock [key] [.str value]] ∧
    (((NewLock client key value expiration).Unlock first).lock.Unlock second).outcome
        = .panicked "send on closed channel" ∧
    (((NewLock client key value expiration).Unlock first).lock.Unlock second).lock
        = ((NewLock client key value expiration).Unlock first).lock := by
  refine ⟨?_, ?_, ?_, ?_, ?_⟩ <;>
    simp [Lock.Unlock, NewLock, makeChan, Chan.send, Chan.close]

/-- The body of the second `Unlock` of the scenario computes `ErrLockNotHold`,
which the panic of the deferred function keeps from being returned. -/
theorem unlockBody_deleted :
    Lock.unlockBody ⟨0, none⟩ = some Err.ErrLockNotHold ∧
    Lock.unlockBody ⟨0, some Err.redisNil⟩ = some Err.ErrLockNotHold := by
  constructor <;> simp [Lock.unlockBody, isErr, errorsIs]

/-! ## Retrying acquisition -/

theorem attempts_roundsTrace (env : LockEnv) (value key : String)
    (expiration timeout : Duration) (k : Nat) :
    ∀ i, attempts (roundsTrace env value key expiration timeout i k) = k := by
  induction k with
  | zero => intro i; rfl
  | succ k ih =>
    intro i
    have := ih (i + 1)
    simp only [attempts] at this
    simp [roundsTrace, attempts, attemptEvent, this]

theorem nextCalls_roundsTrace (env : LockEnv) (value key : String)
    (expiration timeout : Duration) (k : Nat) :
    ∀ i, nextCalls (roundsTrace env value key expiration timeout i k) = k := by
  induction k with
  | zero => intro i; rfl
  | succ k ih =>
    intro i
    have := ih (i + 1)
    simp only [nextCalls] at this
    simp [roundsTrace, nextCalls, attemptEvent, this]

theorem waits_roundsTrace (env : LockEnv) (value key : String)
    (expiration timeout : Duration) (k : Nat) :
    ∀ i, waits (roundsTrace env value key expiration timeout i k)
      = (List.range k).map (fun j => (env.next (i + j)).1) := by
  induction k with
  | zero => intro i; rfl
  | succ k ih =>
    intro i
    have := ih (i + 1)
    simp only [waits] at this
    simp [roundsTrace, waits, attemptEvent, this, List.range_succ_eq_map, Function.comp_def,
      Nat.add_assoc, Nat.add_comm 1]

/-- One iteration that goes round. -/
theorem lockLoop_goesRound (client : Cmdable) (env : LockEnv) (value key : String)
    (expiration timeout : Duration) (fuel i : Nat) (trace : List LockEvent)
    (h : env.goesRound i) :
    Client.lockLoop client env value key expiration timeout (fuel + 1) i trace
      = Client.lockLoop client env value key expiration timeout fuel (i + 1)
          (trace ++ [attemptEvent value key expiration timeout, .next,
            .wait (env.next i).1]) := by
  obtain ⟨h1, h2, h3, h4⟩ := h
  rw [Client.lockLoop]
  simp only [h1, h2, h3, h4, if_false, Bool.false_eq_true, Bool.true_eq_false, attemptEvent,
    List.append_assoc, List.singleton_append, List.cons_append, List.nil_append]

/-- As many iterations that go round as the environment grants. -/
theorem lockLoop_rounds (client : Cmdable) (env : LockEnv) (value key : String)
    (expiration timeout : Duration) (fuel k : Nat) :
    ∀ (i : Nat) (trace : List LockEvent),
      (∀ j, i ≤ j → j < i + k → env.goesRound j) →
      Client.lockLoop client env value key expiration timeout (fuel + k) i trace
        = Client.lockLoop client env value key expiration timeout fuel (i + k)
            (trace ++ roundsTrace env value key expiration timeout i k) := by
  induction k with
  | zero => intro i trace _; simp [roundsTrace]
  | succ k ih =>
    intro i trace h
    have hi : env.goesRound i := h i (Nat.le_refl i) (by omega)
    rw [show fuel + (k + 1) = (fuel + k) + 1 by omega, lockLoop_goesRound _ _ _ _ _ _ _ _ _ hi,
      ih (i + 1) _ (fun j h1 h2 => h j (by omega) (by omega))]
    simp [roundsTrace, Nat.add_assoc, Nat.add_comm 1]

theorem attempts_append (a b : List LockEvent) :
    attempts (a ++ b) = attempts a + attempts b := by
  simp [attempts, List.countP_append]

theorem nextCalls_append (a b : List LockEvent) :
    nextCalls (a ++ b) = nextCalls a + nextCalls b := by
  simp [nextCalls, List.countP_append]

theorem waits_append (a b : List LockEvent) : waits (a ++ b) = waits a ++ waits b := by
  simp [waits, List.filterMap_append]

/-- The loop of `Client.Lock` from its start through `k` iterations that go
round. -/
theorem lock_rounds (client : Cmdable) (env : LockEnv) (value key : String)
    (expiration timeout : Duration) (k fuel : Nat)
    (hrounds : ∀ j, j < k → env.goesRound j) (hfuel : k < fuel) :
    Client.Lock client env value key expiration timeout fuel
      = Client.lockLoop client env value key expiration timeout (fuel - k - 1 + 1) k
          (roundsTrace env value key expiration timeout 0 k) := by
  have h := lockLoop_rounds client env value key expiration timeout (fuel - k - 1 + 1) k 0 []
    (fun j _ hj => hrounds j (by omega))
  rw [show fuel - k - 1 + 1 + k = fuel by omega] at h
  simpa [Client.Lock] using h

/-- C2: when an attempt of `Client.Lock` (the one of iteration `k`, reached
through `k` iterations that went round) fails with a store error `e` that is
not deadline-exceeded, `Lock` returns no lock and `e` itself, and the failing
`Eval` is the last thing it did: no call of `Next`, no wait and no store call
follows it. -/
theorem lock_store_error_aborts (client : Cmdable) (env : LockEnv) (value key : String)
    (expiration timeout : Duration) (k fuel : Nat) (e : Err)
    (hrounds : ∀ j, j < k → env.goesRound j)
    (herr : (env.eval k).err = some e)
    (hnt : errorsIs e .deadlineExceeded = false)
    (hfuel : k < fuel) :
    Client.Lock client env value key expiration timeout fuel
      = some { trace := roundsTrace env value key expiration timeout 0 k ++
                 [attemptEvent value key expiration timeout],
               lock := none, err := some e } ∧
    nextCalls (roundsTrace env value key expiration timeout 0 k ++
      [attemptEvent value key expiration timeout]) = k ∧
    (waits (roundsTrace env value key expiration timeout 0 k ++
      [attemptEvent value key expiration timeout])).length = k ∧
    attempts (roundsTrace env value key expiration timeout 0 k ++
      [attemptEvent value key expiration timeout]) = k + 1 := by
  refine ⟨?_, ?_, ?_, ?_⟩
  · rw [lock_rounds client env value key expiration timeout k fuel hrounds hfuel,
      Client.lockLoop]
    simp [herr, isErr_some, hnt, attemptEvent]
  · rw [nextCalls_append, nextCalls_roundsTrace]
    rfl
  · rw [waits_append, waits_roundsTrace]
    simp [waits, attemptEvent]
  · rw [attempts_append, attempts_roundsTrace]
    rfl

theorem lock_store_error_aborts_witness :
    ((failingStoreEnv 2 (.other "EOF") (50 * Millisecond)).eval 2).err
      = some (Err.other "EOF") ∧
    errorsIs (.other "EOF") .deadlineExceeded = false ∧
    Client.Lock 1 (failingStoreEnv 2 (.other "EOF") (50 * Millisecond)) "3f2c" "job:42"
        (30 * Second) (10 * Millisecond) 3
      = some { trace := roundsTrace (failingStoreEnv 2 (.other "EOF") (50 * Millisecond))
                 "3f2c" "job:42" (30 * Second) (10 * Millisecond) 0 2 ++
                 [attemptEvent "3f2c" "job:42" (30 * Second) (10 * Millisecond)],
               lock := none, err := some (Err.other "EOF") } :=
  ⟨rfl, rfl,
    (lock_store_error_aborts 1 (failingStoreEnv 2 (.other "EOF") (50 * Millisecond))
      "3f2c" "job:42" (30 * Second) (10 * Millisecond) 2 3 (.other "EOF")
      (fun j hj => by
        have hj2 : j ≠ 2 := by omega
        simp [LockEnv.goesRound, failingStoreEnv, hj2, selectWait])
      rfl rfl (by decide)).1⟩

/-- C3, as the code has it: when the wait of `Client.Lock` finds `ctx` done
(iteration `k`, reached through `k` iterations that went round; the attempt did
not acquire and had no error other than deadline-exceeded, the strategy granted
a retry, the timer was not picked), `Lock` returns no lock and `ctx.Err()`,
which is not `ErrFiledToPreemptLock`. -/
theorem lock_cancelled_in_wait (client : Cmdable) (env : LockEnv) (value key : String)
    (expiration timeout : Duration) (k fuel : Nat) (e : CtxErr)
    (hrounds : ∀ j, j < k → env.goesRound j)
    (hattempt : ¬ ((env.eval k).err ≠ none ∧
      isErr (env.eval k).err .deadlineExceeded = false))
    (hres : (env.eval k).res = false)
    (hnext : (env.next k).2 = true)
    (hctx : env.ctxAtWait k = some e)
    (htimer : env.timerPicked k = false)
    (hfuel : k < fuel) :
    Client.Lock client env value key expiration timeout fuel
      = some { trace := roundsTrace env value key expiration timeout 0 k ++
                 [attemptEvent value key expiration timeout, .next, .wait (env.next k).1],
               lock := none, err := some e.toErr } ∧
    e.toErr ≠ Err.ErrFiledToPreemptLock := by
  constructor
  · rw [lock_rounds client env value key expiration timeout k fuel hrounds hfuel,
      Client.lockLoop]
    simp [hattempt, hres, hnext, hctx, htimer, selectWait, attemptEvent]
  · cases e <;> simp [CtxErr.toErr]

theorem lock_cancelled_in_wait_witness :
    (cancelledEnv 1 (50 * Millisecond)).ctxAtWait 1 = some CtxErr.Canceled ∧
    (cancelledEnv 1 (50 * Millisecond)).timerPicked 1 = false ∧
    Client.Lock 1 (cancelledEnv 1 (50 * Millisecond)) "3f2c" "job:42"
        (30 * Second) (10 * Millisecond) 2
      = some { trace := roundsTrace (cancelledEnv 1 (50 * Millisecond))
                 "3f2c" "job:42" (30 * Second) (10 * Millisecond) 0 1 ++
                 [attemptEvent "3f2c" "job:42" (30 * Second) (10 * Millisecond), .next,
                  .wait ((cancelledEnv 1 (50 * Millisecond)).next 1).1],
               lock := none, err := some (CtxErr.toErr .Canceled) } :=
  ⟨rfl, rfl,
    (lock_cancelled_in_wait 1 (cancelledEnv 1 (50 * Millisecond))
      "3f2c" "job:42" (30 * Second) (10 * Millisecond) 1 2 .Canceled
      (fun j hj => by
        have hj0 : j = 0 := by omega
        subst hj0
        simp [LockEnv.goesRound, cancelledEnv, selectWait])
      (by simp [cancelledEnv]) rfl rfl rfl rfl (by decide)).1⟩

/-- C3 as stated fails: with the deadline of `ctx` passed, the attempt
answering deadline-exceeded and the strategy exhausted, `Lock` returns
`ErrFiledToPreemptLock`, not `ctx.Err()`. -/
theorem lock_expired_ctx_exhausted :
    (expiredCtxEnv 0 (50 * Millisecond)).ctxAtEval 0 = some CtxErr.DeadlineExceeded ∧
    (expiredCtxEnv 0 (50 * Millisecond)).eval 0 = ⟨false, some Err.deadlineExceeded⟩ ∧
    (expiredCtxEnv 0 (50 * Millisecond)).next 0 = (50 * Millisecond, false) ∧
    Client.Lock 1 (expiredCtxEnv 0 (50 * Millisecond)) "3f2c" "job:42"
      (30 * Second) (10 * Millisecond) 1
      = some { trace := [attemptEvent "3f2c" "job:42" (30 * Second) (10 * Millisecond),
                 .next],
               lock := none, err := some Err.ErrFiledToPreemptLock } ∧
    Err.ErrFiledToPreemptLock ≠ CtxErr.toErr .DeadlineExceeded := by
  refine ⟨rfl, rfl, rfl, ?_, by decide⟩
  simp [Client.Lock, Client.lockLoop, expiredCtxEnv, attemptEvent, isErr, errorsIs]

/-- C4: with every attempt answered by a clean `false`, exactly `n` retries
granted and `ctx` never done, `Client.Lock` makes `n + 1` attempts and `n + 1`
calls of `Next`, waits `n` times (for the granted intervals, in order), and
returns `ErrFiledToPreemptLock` and no lock. -/
theorem lock_contended_exhausts (client : Cmdable) (env : LockEnv) (value key : String)
    (expiration timeout : Duration) (n fuel : Nat)
    (hstore : ∀ i, env.eval i = ⟨false, none⟩)
    (hgrant : ∀ i, i < n → (env.next i).2 = true)
    (hstop : (env.next n).2 = false)
    (hctx : ∀ i, env.ctxAtWait i = none)
    (hfuel : n < fuel) :
    ∃ r : LockResult,
      Client.Lock client env value key expiration timeout fuel = some r ∧
      r.lock = none ∧
      r.err = some Err.ErrFiledToPreemptLock ∧
      attempts r.trace = n + 1 ∧
      nextCalls r.trace = n + 1 ∧
      (waits r.trace).length = n ∧
      waits r.trace = (List.range n).map (fun j => (env.next j).1) := by
  have hrounds : ∀ j, j < n → env.goesRound j := by
    intro j hj
    refine ⟨?_, ?_, hgrant j hj, ?_⟩
    · rw [hstore j]; simp
    · rw [hstore j]
    · rw [hctx j]; rfl
  refine ⟨{ trace := roundsTrace env value key expiration timeout 0 n ++
              [attemptEvent value key expiration timeout, .next],
            lock := none, err := some Err.ErrFiledToPreemptLock }, ?_, rfl, rfl, ?_, ?_, ?_, ?_⟩
  · rw [lock_rounds client env value key expiration timeout n fuel hrounds hfuel,
      Client.lockLoop]
    simp [hstore n, hstop, attemptEvent]
  · simp only [attempts_append, attempts_roundsTrace]
    rfl
  · simp only [nextCalls_append, nextCalls_roundsTrace]
    rfl
  · rw [waits_append, waits_roundsTrace]
    simp [waits, attemptEvent]
  · rw [waits_append, waits_roundsTrace]
    simp [waits, attemptEvent]

theorem lock_contended_exhausts_witness :
    ∃ r : LockResult,
      Client.Lock 1 (contendedEnv 3 (50 * Millisecond)) "3f2c" "job:42"
        (30 * Second) (10 * Millisecond) 4 = some r ∧
      r.lock = none ∧
      r.err = some Err.ErrFiledToPreemptLock ∧
      attempts r.trace = 3 + 1 ∧
      nextCalls r.trace = 3 + 1 ∧
      (waits r.trace).length = 3 ∧
      waits r.trace
        = (List.range 3).map (fun j => ((contendedEnv 3 (50 * Millisecond)).next j).1) :=
  lock_contended_exhausts 1 (contendedEnv 3 (50 * Millisecond)) "3f2c" "job:42"
    (30 * Second) (10 * Millisecond) 3 4 (fun _ => rfl)
    (fun i hi => by simp [contendedEnv, hi]) (by simp [contendedEnv]) (fun _ => rfl)
    (by decide)

/-- The scenario of key job:42: three retries 50ms apart, four attempts, three
waits of 50ms. -/
theorem lock_contended_scenario :
    (Client.Lock 1 (contendedEnv 3 (50 * Millisecond)) "3f2c" "job:42"
      (30 * Second) (10 * Millisecond) 4).map (fun r => (r.err, attempts r.trace, waits r.trace))
      = some (some Err.ErrFiledToPreemptLock, 4,
          [50 * Millisecond, 50 * Millisecond, 50 * Millisecond]) := by
  simp [Client.Lock, Client.lockLoop, contendedEnv, attemptEvent, isErr, selectWait, waits,
    attempts]

/-! ## Coalesced acquisition -/

/-- Rounds in which the caller goes round again are skipped. -/
theorem singleFlightLoop_again (rounds : Nat → SFRound) (fuel k : Nat) :
    ∀ i, (∀ j, i ≤ j → j < i + k → Client.singleFlightIter (rounds j) = .again) →
      Client.singleFlightLoop rounds (fuel + k) i
        = Client.singleFlightLoop rounds fuel (i + k) := by
  induction k with
  | zero => intro i _; rfl
  | succ k ih =>
    intro i h
    rw [show fuel + (k + 1) = (fuel + k) + 1 by omega, Client.singleFlightLoop,
      h i (Nat.le_refl i) (by omega)]
    simp only
    rw [ih (i + 1) (fun j h1 h2 => h j (by omega) (by omega))]
    congr 1
    omega

/-- C5, as the code has it: a caller whose `ctx` is not done drops the result
of every round in which it was coalesced (flag false) and calls `DoChan`
again; it returns in the first round in which its own closure ran (flag true),
with the lock of that call on success and its error on failure. -/
theorem singleFlight_returns_own_call (rounds : Nat → SFRound) (k fuel : Nat)
    (hcoalesced : ∀ j, j < k → (rounds j).flag = false ∧ (rounds j).ctx = none)
    (hown : (rounds k).flag = true)
    (hctx : (rounds k).ctx = none)
    (hfuel : k < fuel) :
    (∀ j, j < k → Client.singleFlightIter (rounds j) = .again) ∧
    Client.SingleFlightLock rounds fuel
      = some { doChanCalls := k + 1,
               lock := if (rounds k).err ≠ none then none else (rounds k).val,
               err := if (rounds k).err ≠ none then (rounds k).err else none } := by
  have hagain : ∀ j, j < k → Client.singleFlightIter (rounds j) = .again := by
    intro j hj
    obtain ⟨h1, h2⟩ := hcoalesced j hj
    simp [Client.singleFlightIter, h1, h2]
  refine ⟨hagain, ?_⟩
  have h := singleFlightLoop_again rounds (fuel - k - 1 + 1) k 0
    (fun j _ hj => hagain j (by omega))
  rw [show fuel - k - 1 + 1 + k = fuel by omega] at h
  rw [Client.SingleFlightLock, h, Nat.zero_add, Client.singleFlightLoop]
  by_cases he : (rounds k).err = none <;> simp [Client.singleFlightIter, hown, hctx, he]

theorem singleFlight_returns_own_call_witness :
    (coalescedRounds 0).flag = false ∧ (coalescedRounds 0).ctx = none ∧
    (coalescedRounds 1).flag = true ∧ (coalescedRounds 1).ctx = none ∧
    Client.SingleFlightLock coalescedRounds 2
      = some { doChanCalls := 1 + 1,
               lock := if (coalescedRounds 1).err ≠ none then none
                 else (coalescedRounds 1).val,
               err := if (coalescedRounds 1).err ≠ none then (coalescedRounds 1).err
                 else none } :=
  ⟨rfl, rfl, rfl, rfl,
    (singleFlight_returns_own_call coalescedRounds 1 2
      (fun j hj => by
        have hj0 : j = 0 := by omega
        subst hj0
        exact ⟨rfl, rfl⟩)
      rfl rfl (by decide)).2⟩

/-- C5 as stated fails: a caller coalesced onto a call that acquired
`sharedLock`, with its `ctx` not done, does not return that lock when the
shared call completes; it goes round, its own closure runs, and it returns the
error of its own call after two `DoChan` calls. -/
theorem singleFlight_coalesced_drops_result :
    (coalescedRounds 0).flag = false ∧
    (coalescedRounds 0).ctx = none ∧
    (coalescedRounds 0).val = some sharedLock ∧
    (coalescedRounds 0).err = none ∧
    Client.singleFlightIter (coalescedRounds 0) = .again ∧
    Client.singleFlightIter (coalescedRounds 0) ≠ .ret (some sharedLock, none) ∧
    Client.SingleFlightLock coalescedRounds 2
      = some { doChanCalls := 2, lock := none, err := some Err.ErrFiledToPreemptLock } := by
  refine ⟨rfl, rfl, rfl, rfl, ?_, ?_, ?_⟩
  · simp [Client.singleFlightIter, coalescedRounds]
  · simp [Client.singleFlightIter, coalescedRounds]
  · simp [Client.SingleFlightLock, Client.singleFlightLoop, Client.singleFlightIter,
      coalescedRounds]

/-! ## The watchdog -/

/-- C10, evaluated: after a first deadline-exceeded `Refresh` the retry channel
is full; the `select` can then take the ticker case again, and the send after a
second deadline-exceeded `Refresh` parks the goroutine for good. -/
theorem autoRefresh_ticker_send_blocks (l : RedisLock.Lock) :
    l.AutoRefresh (100 * Millisecond) (200 * Millisecond) [tickTimeout 0]
      = .running { cap := 1, len := 1, closed := false }
          [(Branch.ticker, some Err.deadlineExceeded)] ∧
    readyBranches { cap := 1, len := 1, closed := false } (tickTimeout 1)
      = [Branch.ch, Branch.ticker] ∧
    selectBranch { cap := 1, len := 1, closed := false } (tickTimeout 1)
      = some Branch.ticker ∧
    Chan.send { cap := 1, len := 1, closed := false } = ChanOp.blocks ∧
    l.AutoRefresh (100 * Millisecond) (200 * Millisecond) [tickTimeout 0, tickTimeout 1]
      = .done .blocked { cap := 1, len := 1, closed := false }
          [(Branch.ticker, some Err.deadlineExceeded),
           (Branch.ticker, some Err.deadlineExceeded)] := by
  refine ⟨?_, ?_, ?_, ?_, ?_⟩
  · simp [Lock.AutoRefresh, Millisecond, Lock.autoRefreshLoop, selectBranch, readyBranches,
      tickTimeout,
      makeChan, Chan.recvReady, Chan.send, Lock.Refresh, isErr, errorsIs]
  · simp [readyBranches, tickTimeout, makeChan, Chan.recvReady]
  · simp [selectBranch, readyBranches, tickTimeout, makeChan, Chan.recvReady]
  · simp [Chan.send]
  · simp [Lock.AutoRefresh, Millisecond, Lock.autoRefreshLoop, selectBranch, readyBranches,
      tickTimeout,
      makeChan, Chan.recvReady, Chan.send, Lock.Refresh, isErr, errorsIs]

/-- C6, evaluated: after two deadline-exceeded `Refresh` calls made from the
ticker case in a row, `AutoRefresh` is parked in its send whatever happens
next: no later tick makes it call `Refresh`, and no later release makes it
return. -/
theorem autoRefresh_stuck_after_two_timeouts (l : RedisLock.Lock)
    (rest : List RefreshRound) :
    l.AutoRefresh (100 * Millisecond) (200 * Millisecond)
        (tickTimeout 0 :: tickTimeout 1 :: rest)
      = .done .blocked { cap := 1, len := 1, closed := false }
          [(Branch.ticker, some Err.deadlineExceeded),
           (Branch.ticker, some Err.deadlineExceeded)] := by
  simp [Lock.AutoRefresh, Millisecond, Lock.autoRefreshLoop, selectBranch, readyBranches,
      tickTimeout,
    makeChan, Chan.recvReady, Chan.send, Lock.Refresh, isErr, errorsIs]

theorem selectBranch_mem (ch : Chan) (r : RefreshRound) (b : Branch)
    (h : selectBranch ch r = some b) : b ∈ readyBranches ch r :=
  List.getElem?_mem h

theorem selectBranch_ch (ch : Chan) (r : RefreshRound)
    (h : selectBranch ch r = some .ch) : ch.recvReady = true := by
  have hm := selectBranch_mem ch r _ h
  by_contra hc
  simp [readyBranches, hc] at hm

theorem selectBranch_unlock (ch : Chan) (r : RefreshRound)
    (h : selectBranch ch r = some .unlock) : r.unlock.recvReady = true := by
  have hm := selectBranch_mem ch r _ h
  by_contra hc
  simp [readyBranches, hc] at hm

theorem autoReturn_open (err : Option Err) (ch : Chan) (log : List (Branch × Option Err))
    (hopen : ch.closed = false) :
    autoReturn err ch log = .done (.returned err) { ch with closed := true } log := by
  simp [autoReturn, Chan.close, hopen]

theorem autoPost_skip (r : RefreshRound) (rest : List RefreshRound)
    (log log1 : List (Branch × Option Err)) (out : Outcome (Option Err))
    (h : AutoPost rest log out log1) : AutoPost (r :: rest) log out log1 := by
  obtain ⟨more, hlog, h⟩ := h
  refine ⟨more, hlog, ?_⟩
  rcases h with h | ⟨h1, h2, r0, hr0, h3⟩ | h
  · exact Or.inl h
  · exact Or.inr (Or.inl ⟨h1, h2, r0, List.mem_cons_of_mem _ hr0, h3⟩)
  · exact Or.inr (Or.inr h)

theorem autoPost_step (r : RefreshRound) (rest : List RefreshRound)
    (log log1 : List (Branch × Option Err)) (out : Outcome (Option Err))
    (entry : Branch × Option Err) (hk : keepsGoing entry.2)
    (h : AutoPost rest (log ++ [entry]) out log1) : AutoPost (r :: rest) log out log1 := by
  obtain ⟨more, hlog, h⟩ := h
  refine ⟨entry :: more, by simp [hlog], ?_⟩
  have hcons : ∀ pre : List (Branch × Option Err), (∀ x ∈ pre, keepsGoing x.2) →
      ∀ x ∈ entry :: pre, keepsGoing x.2 := by
    intro pre hpre x hx
    rcases List.mem_cons.mp hx with hx | hx
    · rw [hx]; exact hk
    · exact hpre x hx
  rcases h with ⟨pre, e, h1, h2, h3, h4⟩ | ⟨h1, h2, r0, hr0, h3⟩ | ⟨pre, b, e, h1, h2, h3, h4⟩
  · exact Or.inl ⟨entry :: pre, e, h1, by simp [h2], h3, hcons pre h4⟩
  · exact Or.inr (Or.inl ⟨h1, hcons more h2, r0, List.mem_cons_of_mem _ hr0, h3⟩)
  · exact Or.inr (Or.inr ⟨entry :: pre, b, e, h1, by simp [h2], h3, hcons pre h4⟩)

/-- The return paths of the watchdog loop. -/
theorem autoRefreshLoop_done (l : RedisLock.Lock) :
    ∀ (rounds : List RefreshRound) (ch : Chan) (log : List (Branch × Option Err))
      (out : Outcome (Option Err)) (ch1 : Chan) (log1 : List (Branch × Option Err)),
      ch.closed = false → ch.len ≤ ch.cap →
      l.autoRefreshLoop rounds ch log = .done out ch1 log1 →
      AutoPost rounds log out log1 := by
  intro rounds
  induction rounds with
  | nil =>
    intro ch log out ch1 log1 _ _ h
    simp [Lock.autoRefreshLoop] at h
  | cons r rest ih =>
    intro ch log out ch1 log1 hopen hlen h
    rw [Lock.autoRefreshLoop] at h
    cases hsel : selectBranch ch r with
    | none =>
      rw [hsel] at h
      exact autoPost_skip r rest log log1 out (ih ch log out ch1 log1 hopen hlen h)
    | some b =>
      rw [hsel] at h
      cases b with
      | ch =>
        have hready := selectBranch_ch ch r hsel
        have hpos : 0 < ch.len := by
          simpa [Chan.recvReady, hopen] using hready
        simp only [Chan.recv, hpos, if_true] at h
        generalize (l.Refresh r.reply).err = err at h
        cases hd : isErr err .deadlineExceeded with
        | true =>
          have hroom : ch.len - 1 < ch.cap := by omega
          simp only [hd, if_true, Chan.send, hopen, hroom, Bool.false_eq_true, if_false] at h
          refine autoPost_step r rest log log1 out (Branch.ch, err) (Or.inr hd)
            (ih _ _ out ch1 log1 ?_ ?_ h)
          · rfl
          · simp only; omega
        | false =>
          simp only [hd, Bool.false_eq_true, if_false] at h
          cases err with
          | none =>
            simp only [ne_eq, not_true_eq_false, if_false] at h
            refine autoPost_step r rest log log1 out (Branch.ch, none) (Or.inl rfl)
              (ih _ _ out ch1 log1 ?_ ?_ h)
            · exact hopen
            · simp only; omega
          | some e =>
            simp only [ne_eq, reduceCtorEq, not_false_eq_true, if_true] at h
            rw [autoReturn_open _ { cap := ch.cap, len := ch.len - 1, closed := ch.closed } _
              hopen] at h
            injection h with h1 h2 h3
            exact ⟨[(Branch.ch, some e)], h3.symm, Or.inr (Or.inr
              ⟨[], Branch.ch, e, h1.symm, rfl, by simpa [isErr] using hd, by simp⟩)⟩
      | ticker =>
        simp only at h
        generalize (l.Refresh r.reply).err = err at h
        cases hd : isErr err .deadlineExceeded with
        | true =>
          simp only [hd, if_true, Chan.send, hopen, Bool.false_eq_true, if_false] at h
          by_cases hroom : ch.len < ch.cap
          · simp only [hroom, if_true] at h
            refine autoPost_step r rest log log1 out (Branch.ticker, err) (Or.inr hd)
              (ih _ _ out ch1 log1 ?_ ?_ h)
            · rfl
            · simp only; omega
          · simp only [hroom, if_false] at h
            injection h with h1 h2 h3
            cases err with
            | none => simp [isErr] at hd
            | some e =>
              exact ⟨[(Branch.ticker, some e)], h3.symm, Or.inl
                ⟨[], e, h1.symm, rfl, by simpa [isErr] using hd, by simp⟩⟩
        | false =>
          simp only [hd, Bool.false_eq_true, if_false] at h
          cases err with
          | none =>
            simp only [ne_eq, not_true_eq_false, if_false] at h
            exact autoPost_step r rest log log1 out (Branch.ticker, none) (Or.inl rfl)
              (ih _ _ out ch1 log1 hopen hlen h)
          | some e =>
            simp only [ne_eq, reduceCtorEq, not_false_eq_true, if_true] at h
            rw [autoReturn_open _ _ _ hopen] at h
            injection h with h1 h2 h3
            exact ⟨[(Branch.ticker, some e)], h3.symm, Or.inr (Or.inr
              ⟨[], Branch.ticker, e, h1.symm, rfl, by simpa [isErr] using hd, by simp⟩)⟩
      | unlock =>
        simp only at h
        rw [autoReturn_open _ _ _ hopen] at h
        injection h with h1 h2 h3
        exact ⟨[], by simp [h3], Or.inr (Or.inl
          ⟨h1.symm, by simp, r, List.mem_cons_self _ _, selectBranch_unlock ch r hsel⟩)⟩

/-- With a positive interval the ticker is made and `Lock.AutoRefresh` is its
loop started on an empty retry channel. -/
theorem autoRefresh_ticker_made (l : RedisLock.Lock) (interval timeout : Duration)
    (rounds : List RefreshRound) (hpos : 0 < interval) :
    l.AutoRefresh interval timeout rounds = l.autoRefreshLoop rounds (makeChan 1) [] := by
  simp [Lock.AutoRefresh, not_le.mpr hpos]

/-- With an interval that is not positive `time.NewTicker` panics and
`Lock.AutoRefresh` never reaches its loop. -/
theorem autoRefresh_no_ticker (l : RedisLock.Lock) (interval timeout : Duration)
    (rounds : List RefreshRound) (hneg : interval ≤ 0) :
    l.AutoRefresh interval timeout rounds
      = .noTicker "non-positive interval for NewTicker" := by
  simp [Lock.AutoRefresh, hneg]

/-- The return paths of `Lock.AutoRefresh` once its ticker is made: the loop
does not panic; it returns nil only with the release channel readable; an error
it returns is the result of its last `Refresh`, is not deadline-exceeded, and
every earlier `Refresh` succeeded or was deadline-exceeded; it is parked only by
the send that follows a deadline-exceeded `Refresh` of the ticker case. -/
theorem autoRefresh_return_paths (l : RedisLock.Lock) (interval timeout : Duration)
    (rounds : List RefreshRound) (out : Outcome (Option Err)) (ch1 : Chan)
    (log1 : List (Branch × Option Err))
    (h : l.AutoRefresh interval timeout rounds = .done out ch1 log1) :
    AutoPost rounds [] out log1 := by
  by_cases hpos : 0 < interval
  · rw [autoRefresh_ticker_made l interval timeout rounds hpos] at h
    exact autoRefreshLoop_done l rounds (makeChan 1) [] out ch1 log1 rfl (by decide) h
  · rw [autoRefresh_no_ticker l interval timeout rounds (not_lt.mp hpos)] at h
    cases h

end RedisLock
